import Mathlib

/-!
# Verification of the `inspector.py` stdio transport and JSON-RPC dispatcher

Shallow embedding of `src/src/Analysis/Ast/Impl/inspector.py`: the
Content-Length framing layer (`read_line`, `read_request`, the body-read
loop, `write_response`'s frame construction), the dispatcher (`Mux.handle`,
`Request`, `write_result` / `write_error`) and the request loop.

Modelling conventions:
* Bytes are `Nat`s; a body string is a list of Unicode code points (`Nat`).
* The input stream is a list of chunks (`List (List Nat)`), each chunk the
  bytes one underlying `read` call delivers, so possibly-short reads are
  representable.  End of stream is stream exhaustion; Python's buffered
  `read`/`readline` return `b""` there, which the source's loops spin on —
  modelled by explicit `diverge` outcomes.
* Loops of the source are written with an explicit fuel argument that the
  wrappers instantiate with the total byte count of the stream; each loop
  iteration of the source consumes at least one byte, so the fuel-exhausted
  branch (mapped to `diverge`) is never reached from a wrapper.
* JSON values are the inductive `JVal` (integral numbers suffice for the
  protocol's ids and error codes).  The dispatcher layer works on decoded
  `Request` values; the framing layer works on raw bytes, and the request
  loop is parametrised by the decode-and-dispatch step applied to each body.
-/

namespace Inspector

/-! ## JSON values and generic dict operations -/

/-- A JSON value as `json.loads` / `json.dumps` handle it (integral numbers). -/
inductive JVal : Type where
  | null : JVal
  | bool : Bool → JVal
  | num : Int → JVal
  | str : String → JVal
  | arr : List JVal → JVal
  | obj : List (String × JVal) → JVal

/-- A JSON object / Python dict as an insertion-ordered association list. -/
abbrev JObj := List (String × JVal)

/-- Python `d[k] = v`: replace in place if the key exists, else append
(insertion-ordered dict semantics). -/
def dictSet {α β : Type} [DecidableEq α] (o : List (α × β)) (k : α) (v : β) :
    List (α × β) :=
  if o.any (fun p => decide (p.1 = k)) then
    o.map (fun p => if p.1 = k then (k, v) else p)
  else o ++ [(k, v)]

/-- Python `d.get(k)` / `d[k]` lookup. -/
def dictGet {α β : Type} [DecidableEq α] : List (α × β) → α → Option β
  | [], _ => none
  | p :: rest, k => if p.1 = k then some p.2 else dictGet rest k

/-- Python `d.update(e)`: `dictSet` every pair of `e` into `d` in order. -/
def dictUpdate {α β : Type} [DecidableEq α] (o e : List (α × β)) : List (α × β) :=
  e.foldl (fun acc p => dictSet acc p.1 p.2) o

/-- Whether a response object carries a given key. -/
def hasKey (o : JObj) (k : String) : Bool :=
  o.any (fun p => p.1 == k)

/-! ## Byte streams -/

/-- The input stream: the successive chunks the underlying reads deliver. -/
abbrev ByteStream := List (List Nat)

/-- Total number of bytes remaining on the stream. -/
def totalLen (s : ByteStream) : Nat := s.flatten.length

/-! ## UTF-8 encoding (Python `str.encode("utf-8")`) -/

/-- UTF-8 encoding of a single code point. -/
def utf8EncodeChar (c : Nat) : List Nat :=
  if c < 0x80 then [c]
  else if c < 0x800 then [0xC0 + c / 0x40, 0x80 + c % 0x40]
  else if c < 0x10000 then
    [0xE0 + c / 0x1000, 0x80 + c / 0x40 % 0x40, 0x80 + c % 0x40]
  else
    [0xF0 + c / 0x40000, 0x80 + c / 0x1000 % 0x40, 0x80 + c / 0x40 % 0x40,
     0x80 + c % 0x40]

/-- UTF-8 encoding of a string of code points. -/
def utf8Encode (s : List Nat) : List Nat := (s.map utf8EncodeChar).flatten

/-- Code points of an ASCII Lean string literal, as bytes. -/
def asciiStr (s : String) : List Nat := s.toList.map Char.toNat

/-! ## Decimal rendering and Python `int()` parsing -/

/-- Digit bytes of `n`, most significant first (`n > 0`); fuel-driven, the
wrapper passes `n` itself which bounds the digit count. -/
def natToDecAux : Nat → Nat → List Nat
  | 0, _ => []
  | fuel + 1, n => if n = 0 then [] else natToDecAux fuel (n / 10) ++ [n % 10 + 48]

/-- Python `str(n)` for a natural number, as ASCII bytes. -/
def natToDec (n : Nat) : List Nat := if n = 0 then [48] else natToDecAux n n

/-- Value of a most-significant-first digit-byte list. -/
def digitsToNat (l : List Nat) : Nat := l.foldl (fun a c => a * 10 + (c - 48)) 0

/-- ASCII whitespace as stripped by Python `int()`. -/
def isPyWS (c : Nat) : Bool := [32, 9, 10, 13, 11, 12].contains c

/-- ASCII decimal digit. -/
def isDigitByte (c : Nat) : Bool := decide (48 ≤ c) && decide (c ≤ 57)

/-- Python `int(bytes)`: strip whitespace, optional sign, then a nonempty
all-digit run; anything else raises `ValueError`, modelled as `none`
(underscore digit grouping is not modelled). -/
def parsePyInt (bs : List Nat) : Option Int :=
  let t := ((bs.dropWhile isPyWS).reverse.dropWhile isPyWS).reverse
  let signed : Int × List Nat :=
    match t with
    | [] => (1, [])
    | c :: r =>
      if c = 43 then (1, r) else if c = 45 then (-1, r) else (1, c :: r)
  if signed.2 ≠ [] ∧ signed.2.all isDigitByte then
    some (signed.1 * (digitsToNat signed.2 : Int))
  else none

/-! ## `read_line`: header-line reading

Source:
```
def read_line():
    line = b""
    while True:
        try:
            line += stdin.readline()
        except:
            raise EOFError
        if not line:
            raise EOFError
        if line.endswith(b"\r\n"):
            return line[:-2]
```
-/

/-- Split a chunk at its first `\n` (inclusive); `none` if it has no `\n`. -/
def splitNL : List Nat → List Nat × Option (List Nat)
  | [] => ([], none)
  | c :: rest =>
    if c = 10 then ([10], some rest)
    else
      let p := splitNL rest
      (c :: p.1, p.2)

/-- Buffered `stdin.readline()`: bytes up to and including the first `\n`
(or everything left, at end of stream), plus the remaining stream. -/
def pyReadline : ByteStream → List Nat × ByteStream
  | [] => ([], [])
  | c :: rest =>
    match splitNL c with
    | (l, some r) => if r = [] then (l, rest) else (l, r :: rest)
    | (l, none) =>
      let p := pyReadline rest
      (l ++ p.1, p.2)

/-- `line.endswith(b"\r\n")`. -/
def endsCRLF (l : List Nat) : Bool := decide (l.reverse.take 2 = [10, 13])

/-- Outcome of `read_line`: `eof` models the raised `EOFError`, `diverge` the
infinite loop the source enters when the stream ends on a partial line. -/
inductive LineRes : Type where
  | eof : LineRes
  | diverge : LineRes
  | ok : List Nat → ByteStream → LineRes

/-- The `read_line` accumulation loop.  Each recursive step consumes at least
one byte, so fuel `totalLen s` never runs out from the wrapper. -/
def readLineAux : Nat → List Nat → ByteStream → LineRes
  | fuel, acc, s =>
    let p := pyReadline s
    let acc2 := acc ++ p.1
    if acc2 = [] then .eof
    else if endsCRLF acc2 then .ok acc2.dropLast.dropLast p.2
    else if p.1 = [] then .diverge
    else
      match fuel with
      | 0 => .diverge
      | fuel' + 1 => readLineAux fuel' acc2 p.2

/-- `read_line()`. -/
def read_line (s : ByteStream) : LineRes := readLineAux (totalLen s) [] s

/-! ## Header parsing (the first loop of `read_request`) -/

/-- Parsed header set of one frame. -/
abbrev Headers := List (List Nat × List Nat)

/-- `key, _, value = line.partition(b": ")`: split at the first `": "`;
if absent the whole line is the key and the value is empty. -/
def partitionKV : List Nat → List Nat × List Nat
  | [] => ([], [])
  | [c] => ([c], [])
  | c :: d :: rest =>
    if c = 58 ∧ d = 32 then ([], rest)
    else
      let p := partitionKV (d :: rest)
      (c :: p.1, p.2)

/-- `headers[key] = value` for one header line. -/
def headerInsert (line : List Nat) (h : Headers) : Headers :=
  dictSet h (partitionKV line).1 (partitionKV line).2

/-- Outcome of the header loop. -/
inductive HdrRes : Type where
  | eof : HdrRes
  | diverge : HdrRes
  | ok : Headers → ByteStream → HdrRes

/-- The header loop of `read_request`: read lines into the dict until an
empty line.  Each iteration consumes at least the line's CRLF, so fuel
`totalLen s` never runs out from the wrapper. -/
def parseHeadersAux : Nat → Headers → ByteStream → HdrRes
  | fuel, h, s =>
    match read_line s with
    | .eof => .eof
    | .diverge => .diverge
    | .ok line rest =>
      if line = [] then .ok h rest
      else
        match fuel with
        | 0 => .diverge
        | fuel' + 1 => parseHeadersAux fuel' (headerInsert line h) rest

/-- Header block parsing, starting from the empty dict. -/
def parseHeaders (s : ByteStream) : HdrRes := parseHeadersAux (totalLen s) [] s

/-! ## Body reading

Source:
```
    body = b""
    while length > 0:
        chunk = stdin.read(length)
        body += chunk
        length -= len(chunk)
```
`stdin.read` at end of stream returns `b""`, leaving `length` unchanged:
the source loops forever, modelled as `none`. -/

/-- The body-accumulation loop: collect exactly `n` bytes across
possibly-short reads; `none` when the stream ends first (the source spins). -/
def readBody : Nat → ByteStream → Option (List Nat × ByteStream)
  | 0, s => some ([], s)
  | _ + 1, [] => none
  | n + 1, c :: rest =>
    if c = [] then readBody (n + 1) rest
    else if c.length ≤ n + 1 then
      (readBody (n + 1 - c.length) rest).map (fun p => (c ++ p.1, p.2))
    else some (c.take (n + 1), c.drop (n + 1) :: rest)

/-! ## `read_request`: one frame -/

/-- ASCII bytes of `Content-Length`, the only header `read_request` consults. -/
def contentLengthKey : List Nat := asciiStr "Content-Length"

/-- Outcome of reading one frame.  `fatal` models the uncaught `KeyError` /
`ValueError` from `int(headers[b"Content-Length"])`; `ok` carries the body
bytes handed to `json.loads` and the remaining stream. -/
inductive ReqRes : Type where
  | eof : ReqRes
  | diverge : ReqRes
  | fatal : String → ReqRes
  | ok : List Nat → ByteStream → ReqRes

/-- The part of `read_request` after the header loop:
`length = int(headers[b"Content-Length"])` then the body loop. -/
def readRequestBody (hdrs : Headers) (s : ByteStream) : ReqRes :=
  match dictGet hdrs contentLengthKey with
  | none => .fatal "KeyError: Content-Length"
  | some v =>
    match parsePyInt v with
    | none => .fatal "ValueError: invalid literal for int()"
    | some len =>
      match readBody len.toNat s with
      | none => .diverge
      | some (body, rest) => .ok body rest

/-- `read_request()` at the framing level: headers, then the body bytes the
source passes to `json.loads` (decoding is the loop step's concern). -/
def read_request (s : ByteStream) : ReqRes :=
  match parseHeaders s with
  | .eof => .eof
  | .diverge => .diverge
  | .ok hdrs rest => readRequestBody hdrs rest

/-! ## The frame writer

Source:
```
def write_response(id, d):
    response = {"jsonrpc": "2.0", "id": id}
    response.update(d)
    s = json.dumps(response)
    data = "Content-Length: {}\r\n\r\n".format(len(s)) + s
    write_stdout(data)
```
`len(s)` is the character count of the body string; `write_stdout` then
UTF-8-encodes the whole of `data`. -/

/-- The frame written for a body string `s` (a code-point list): the header
declares `len(s)` — the character count — and the bytes on the wire are the
UTF-8 encoding of header plus body. -/
def write_frame (s : List Nat) : List Nat :=
  utf8Encode (asciiStr "Content-Length: " ++ natToDec s.length ++
    [13, 10, 13, 10] ++ s)

/-! ## The dispatcher -/

/-- `METHOD_NOT_FOUND = -32601`. -/
def METHOD_NOT_FOUND : Int := -32601

/-- `INTERNAL_ERROR = -32603`. -/
def INTERNAL_ERROR : Int := -32603

/-- A registered handler: the Python function body, taking the unpacked
positional arguments; a raised exception is `.error` with its `str(e)` text
(an arity mismatch is such a `TypeError`). -/
abbrev Handler := List JVal → Except String JVal

/-- A decoded request:
`self.id = request["id"]`, `self.method = request["method"]`,
`self.params = request.get("params", None)` — `none` when the `params` key
is absent (or explicitly `null`). -/
structure Request : Type where
  id : JVal
  method : String
  params : Option JVal

/-- The response object of `write_response`: insertion-ordered
`{"jsonrpc": "2.0", "id": id}` updated with `d`. -/
def write_response (rid : JVal) (d : JObj) : JObj :=
  dictUpdate [("jsonrpc", JVal.str "2.0"), ("id", rid)] d

/-- `Request.write_result`. -/
def Request.write_result (r : Request) (v : JVal) : JObj :=
  write_response r.id [("result", v)]

/-- `Request.write_error`. -/
def Request.write_error (r : Request) (code : Int) (message : String) : JObj :=
  write_response r.id
    [("error", JVal.obj [("code", JVal.num code), ("message", JVal.str message)])]

/-- `str(e)` of the `TypeError` CPython raises for `f(*None)` when the
`params` key was absent. -/
def starArgsNoneMsg : String := "argument after * must be an iterable, not NoneType"

/-- `handler(*request.params)`'s argument unpacking: `params` absent (or
`null`) is `None`, which is not iterable and raises `TypeError`; a JSON
array unpacks positionally; a string unpacks into its characters and an
object into its keys; other scalars are not iterable. -/
def unpackArgs : Option JVal → Except String (List JVal)
  | none => .error starArgsNoneMsg
  | some JVal.null => .error starArgsNoneMsg
  | some (JVal.arr l) => .ok l
  | some (JVal.str s) => .ok (s.toList.map (fun c => JVal.str (String.mk [c])))
  | some (JVal.obj l) => .ok (l.map (fun p => JVal.str p.1))
  | some (JVal.bool _) => .error "argument after * must be an iterable, not bool"
  | some (JVal.num _) => .error "argument after * must be an iterable, not int"

/-- The method registry (`self.handlers`), insertion-ordered. -/
structure Mux : Type where
  handlers : List (String × Handler)

/-- `Mux.handle`: look the method up; a miss writes the METHOD_NOT_FOUND
error; a hit invokes the handler on the unpacked params inside the
`try`/`except` boundary, writing the result or the INTERNAL_ERROR envelope.
The returned list is the trace of response objects written (one per call of
`write_result` / `write_error`). -/
def Mux.handle (m : Mux) (r : Request) : List JObj :=
  match dictGet m.handlers r.method with
  | none => [r.write_error METHOD_NOT_FOUND ("method " ++ r.method ++ " not found")]
  | some handler =>
    match (unpackArgs r.params).bind handler with
    | .error e => [r.write_error INTERNAL_ERROR e]
    | .ok v => [r.write_result v]

/-- `main`'s loop at the request level: `for request in requests():
mux.handle(request)` — the responses written, in order, one frame's writes
before the next request is handled. -/
def processRequests (m : Mux) : List Request → List JObj
  | [] => []
  | r :: rs => m.handle r ++ processRequests m rs

/-- `def cancel_request(params): return None` — one positional parameter;
any other argument count is a `TypeError` at the call. -/
def cancel_request : Handler := fun args =>
  match args with
  | [_] => .ok JVal.null
  | _ => .error "cancel_request() takes exactly 1 argument"

/-- The module-level `mux` with its three registrations, in source order.
`module_member_names` and `module_version` call into the import system, so
the registry is parametrised by their behaviour; `cancel_request` is fully
modelled.  The cancellation handler is registered under `$/cancelRequest`. -/
def inspectorMux (mm mv : Handler) : Mux :=
  ⟨[("$/cancelRequest", cancel_request),
    ("moduleMemberNames", mm),
    ("moduleVersion", mv)]⟩

/-! ## The request loop over the byte stream -/

/-- Outcome of the request loop: orderly end-of-stream, the source's
infinite loops, or an uncaught fault. -/
inductive LoopRes : Type where
  | clean : LoopRes
  | diverge : LoopRes
  | fatal : String → LoopRes

/-- The request loop: read a frame, hand the body to the decode-and-dispatch
step (`none` models an uncaught decode fault), collect the responses written.
`requests()` catches only `EOFError`, so `.eof` alone ends the loop cleanly.
Each frame consumes at least one byte, so fuel `totalLen s` never runs out
from the wrapper. -/
def runFramesAux (step : List Nat → Option (List JObj)) :
    Nat → ByteStream → LoopRes × List JObj
  | fuel, s =>
    match read_request s with
    | .eof => (.clean, [])
    | .diverge => (.diverge, [])
    | .fatal m => (.fatal m, [])
    | .ok body rest =>
      match step body with
      | none => (.fatal "uncaught decode fault", [])
      | some outs =>
        match fuel with
        | 0 => (.diverge, [])
        | fuel' + 1 =>
          let p := runFramesAux step fuel' rest
          (p.1, outs ++ p.2)

/-- The request loop, from the start of the stream. -/
def runFrames (step : List Nat → Option (List JObj)) (s : ByteStream) :
    LoopRes × List JObj :=
  runFramesAux step (totalLen s) s

/-! ## Fixture handlers for concrete instantiations -/

/-- A stub standing in for the import-backed handlers where their behaviour
is irrelevant. -/
def stubHandler : Handler := fun _ => .ok JVal.null

/-- A zero-parameter handler fixture (`def ping(): return "pong"`). -/
def pingHandler : Handler := fun args =>
  match args with
  | [] => .ok (JVal.str "pong")
  | _ => .error "ping() takes 0 positional arguments"

/-- A handler fixture that always raises (`def fail(*a): raise Exception("boom")`). -/
def failHandler : Handler := fun _ => .error "boom"

/-! ## Helper lemmas: UTF-8 -/

theorem utf8Encode_append (a b : List Nat) :
    utf8Encode (a ++ b) = utf8Encode a ++ utf8Encode b := by
  simp [utf8Encode]

theorem utf8Encode_ascii (l : List Nat) (h : ∀ c ∈ l, c < 128) :
    utf8Encode l = l := by
  induction l with
  | nil => rfl
  | cons c t ih =>
    have hc : c < 128 := h c (List.mem_cons_self c t)
    have ht := ih (fun x hx => h x (List.mem_cons_of_mem c hx))
    simp [utf8Encode, utf8EncodeChar, hc] at ht ⊢
    exact ht

/-! ## Helper lemmas: decimal digits and `int()` -/

theorem digitsToNat_append (l : List Nat) (d : Nat) :
    digitsToNat (l ++ [d]) = digitsToNat l * 10 + (d - 48) := by
  simp [digitsToNat, List.foldl_append]

theorem natToDecAux_eq (fuel : Nat) :
    ∀ n, n ≤ fuel → digitsToNat (natToDecAux fuel n) = n := by
  induction fuel with
  | zero =>
    intro n hn
    interval_cases n
    rfl
  | succ fuel ih =>
    intro n hn
    by_cases h0 : n = 0
    · subst h0; simp [natToDecAux, digitsToNat]
    · have hdiv : n / 10 < n := Nat.div_lt_self (Nat.pos_of_ne_zero h0) (by norm_num)
      have : n / 10 ≤ fuel := by omega
      simp only [natToDecAux, if_neg h0]
      rw [digitsToNat_append, ih (n / 10) this]
      omega

theorem natToDecAux_digits (fuel : Nat) :
    ∀ n c, c ∈ natToDecAux fuel n → 48 ≤ c ∧ c ≤ 57 := by
  induction fuel with
  | zero => intro n c hc; simp [natToDecAux] at hc
  | succ fuel ih =>
    intro n c hc
    by_cases h0 : n = 0
    · subst h0; simp [natToDecAux] at hc
    · simp only [natToDecAux, if_neg h0, List.mem_append, List.mem_singleton] at hc
      rcases hc with hc | hc
      · exact ih _ _ hc
      · have : n % 10 < 10 := Nat.mod_lt _ (by norm_num)
        omega

theorem natToDec_digits (n : Nat) : ∀ c ∈ natToDec n, 48 ≤ c ∧ c ≤ 57 := by
  intro c hc
  unfold natToDec at hc
  by_cases h0 : n = 0
  · simp [h0] at hc; omega
  · rw [if_neg h0] at hc
    exact natToDecAux_digits n n c hc

theorem natToDec_ne_nil (n : Nat) : natToDec n ≠ [] := by
  unfold natToDec
  by_cases h0 : n = 0
  · simp [h0]
  · rw [if_neg h0]
    obtain ⟨f, hf⟩ := Nat.exists_eq_succ_of_ne_zero h0
    conv_lhs => rw [hf]
    simp [natToDecAux, hf ▸ h0]

theorem digitsToNat_natToDec (n : Nat) : digitsToNat (natToDec n) = n := by
  unfold natToDec
  by_cases h0 : n = 0
  · simp [h0, digitsToNat]
  · rw [if_neg h0]
    exact natToDecAux_eq n n le_rfl

theorem digit_not_ws (c : Nat) (h1 : 48 ≤ c) (h2 : c ≤ 57) : isPyWS c = false := by
  simp only [isPyWS, List.contains_cons, List.contains_nil, Bool.or_false,
    Bool.or_eq_false_iff, beq_eq_false_iff_ne, ne_eq]
  omega

theorem dropWhile_head_false {p : Nat → Bool} {a : Nat} {t : List Nat}
    (h : p a = false) : List.dropWhile p (a :: t) = a :: t := by
  simp [List.dropWhile_cons, h]

theorem parsePyInt_digits (l : List Nat) (hne : l ≠ [])
    (hd : ∀ c ∈ l, 48 ≤ c ∧ c ≤ 57) :
    parsePyInt l = some (digitsToNat l : Int) := by
  obtain ⟨a, t, rfl⟩ := List.exists_cons_of_ne_nil hne
  have ha := hd a (List.mem_cons_self a t)
  have h1 : List.dropWhile isPyWS (a :: t) = a :: t :=
    dropWhile_head_false (digit_not_ws a ha.1 ha.2)
  have hrev : ∀ c ∈ (a :: t).reverse, 48 ≤ c ∧ c ≤ 57 := by
    intro c hc; exact hd c (List.mem_reverse.mp hc)
  have h2 : List.dropWhile isPyWS (a :: t).reverse = (a :: t).reverse := by
    obtain ⟨b, u, hb⟩ := List.exists_cons_of_ne_nil
      (l := (a :: t).reverse) (by simp)
    have hbmem : b ∈ (a :: t).reverse := hb ▸ List.mem_cons_self b u
    have := hrev b hbmem
    rw [hb]
    exact dropWhile_head_false (digit_not_ws b this.1 this.2)
  have hall : (a :: t).all isDigitByte = true := by
    rw [List.all_eq_true]
    intro c hc
    have := hd c hc
    simp [isDigitByte]
    omega
  have ha43 : ¬a = 43 := by omega
  have ha45 : ¬a = 45 := by omega
  simp only [parsePyInt, h1, h2, List.reverse_reverse, if_neg ha43, if_neg ha45]
  rw [if_pos ⟨by simp, hall⟩]
  simp

theorem parsePyInt_natToDec (n : Nat) : parsePyInt (natToDec n) = some (n : Int) := by
  rw [parsePyInt_digits (natToDec n) (natToDec_ne_nil n) (natToDec_digits n),
    digitsToNat_natToDec]

theorem natToDec_lt128 (n : Nat) : ∀ c ∈ natToDec n, c < 128 := by
  intro c hc
  have := natToDec_digits n c hc
  omega

theorem ten_not_mem_natToDec (n : Nat) : 10 ∉ natToDec n := by
  intro h
  have := natToDec_digits n 10 h
  omega

/-! ## Helper lemmas: line reading -/

theorem splitNL_found (l r : List Nat) (h : 10 ∉ l) :
    splitNL (l ++ 10 :: r) = (l ++ [10], some r) := by
  induction l with
  | nil => simp [splitNL]
  | cons a t ih =>
    have ha : ¬a = 10 := fun hh => h (by simp [hh])
    have ht : 10 ∉ t := fun hh => h (List.mem_cons_of_mem a hh)
    simp only [List.cons_append, splitNL, if_neg ha, List.append_eq, ih ht]

theorem pyReadline_found (l r : List Nat) (tl : ByteStream) (h : 10 ∉ l) :
    pyReadline ((l ++ 10 :: r) :: tl) =
      (l ++ [10], if r = [] then tl else r :: tl) := by
  simp only [pyReadline, splitNL_found l r h]
  split_ifs <;> rfl

theorem endsCRLF_append (x : List Nat) : endsCRLF (x ++ [13, 10]) = true := by
  have : (x ++ [13, 10]).reverse = 10 :: 13 :: x.reverse := by
    simp
  simp [endsCRLF, this]

theorem dropLast2_append (x : List Nat) (a b : Nat) :
    (x ++ [a, b]).dropLast.dropLast = x := by
  have h1 : x ++ [a, b] = (x ++ [a]) ++ [b] := by simp
  rw [h1, List.dropLast_concat, List.dropLast_concat]

theorem read_line_crlf (l r : List Nat) (tl : ByteStream) (h : 10 ∉ l) :
    read_line ((l ++ 13 :: 10 :: r) :: tl) =
      .ok l (if r = [] then tl else r :: tl) := by
  have h13 : (10 : Nat) ∉ l ++ [13] := by
    intro hm
    rcases List.mem_append.mp hm with hm | hm
    · exact h hm
    · simp at hm
  have hsh : l ++ 13 :: 10 :: r = (l ++ [13]) ++ 10 :: r := by simp
  have hpy := pyReadline_found (l ++ [13]) r tl h13
  rw [hsh] at *
  unfold read_line readLineAux
  rw [hpy]
  have hline : (l ++ [13]) ++ [10] = l ++ [13, 10] := by simp
  simp only [hline, List.nil_append]
  rw [if_neg (by simp), if_pos (endsCRLF_append l), dropLast2_append]

theorem pyReadline_exhausted (s : ByteStream) (h : s.flatten = []) :
    pyReadline s = ([], []) := by
  induction s with
  | nil => rfl
  | cons c rest ih =>
    simp only [List.flatten_cons, List.append_eq_nil] at h
    rw [h.1] at *
    simp only [pyReadline, splitNL, ih h.2]
    simp

theorem read_line_exhausted (s : ByteStream) (h : s.flatten = []) :
    read_line s = .eof := by
  unfold read_line readLineAux
  rw [pyReadline_exhausted s h]
  simp

/-! ## Helper lemmas: dicts and header parsing -/

theorem dictGet_append_fresh {α β : Type} [DecidableEq α]
    (h : List (α × β)) (k : α) (v : β)
    (hk : h.any (fun q => decide (q.1 = k)) = false) :
    dictGet (h ++ [(k, v)]) k = some v := by
  induction h with
  | nil => simp [dictGet]
  | cons p t ih =>
    simp only [List.any_cons, Bool.or_eq_false_iff, decide_eq_false_iff_not] at hk
    simp only [List.cons_append, dictGet, if_neg hk.1]
    exact ih (by simp [hk.2])

theorem dictGet_map_overwrite {α β : Type} [DecidableEq α]
    (h : List (α × β)) (k : α) (v : β)
    (hk : h.any (fun q => decide (q.1 = k)) = true) :
    dictGet (h.map (fun p => if p.1 = k then (k, v) else p)) k = some v := by
  induction h with
  | nil => simp at hk
  | cons p t ih =>
    by_cases hp : p.1 = k
    · simp [dictGet, hp]
    · simp only [List.any_cons, Bool.or_eq_true, decide_eq_true_eq] at hk
      rcases hk with hk | hk
      · exact absurd hk hp
      · simp only [List.map_cons, if_neg hp, dictGet, if_neg hp]
        exact ih hk

theorem dictGet_dictSet {α β : Type} [DecidableEq α]
    (h : List (α × β)) (k : α) (v : β) : dictGet (dictSet h k v) k = some v := by
  unfold dictSet
  cases hc : h.any (fun q => decide (q.1 = k)) with
  | true =>
    rw [if_pos rfl]
    exact dictGet_map_overwrite h k v hc
  | false =>
    rw [if_neg (by simp)]
    exact dictGet_append_fresh h k v hc

theorem partitionKV_found (k v : List Nat) (h : 58 ∉ k) :
    partitionKV (k ++ 58 :: 32 :: v) = (k, v) := by
  induction k with
  | nil => simp [partitionKV]
  | cons a t ih =>
    have ha : ¬a = 58 := fun hh => h (by simp [hh])
    have ht : 58 ∉ t := fun hh => h (List.mem_cons_of_mem a hh)
    cases t with
    | nil =>
      simp [partitionKV, ha]
    | cons b t2 =>
      have hih := ih ht
      simp only [List.cons_append] at hih ⊢
      rw [partitionKV, if_neg (show ¬(a = 58 ∧ b = 32) from fun hh => ha hh.1)]
      simp only [hih]

theorem readBody_whole (b : List Nat) (hne : b ≠ []) :
    readBody b.length [b] = some (b, []) := by
  obtain ⟨c, cs, rfl⟩ := List.exists_cons_of_ne_nil hne
  simp only [List.length_cons, readBody]
  rw [if_neg (by simp), if_pos le_rfl]
  simp [readBody]

/-! ## Helper lemmas: evaluating the reader on one written frame -/

theorem write_frame_ascii (s : List Nat) (h : ∀ c ∈ s, c < 128) :
    write_frame s =
      asciiStr "Content-Length: " ++ natToDec s.length ++ [13, 10, 13, 10] ++ s := by
  unfold write_frame
  rw [utf8Encode_append, utf8Encode_append, utf8Encode_append,
    utf8Encode_ascii _ (by decide), utf8Encode_ascii _ (natToDec_lt128 s.length),
    utf8Encode_ascii _ (by decide), utf8Encode_ascii _ h]

theorem parseHeaders_single_frame (n : Nat) (body : List Nat) :
    parseHeaders [asciiStr "Content-Length: " ++ natToDec n ++ [13, 10, 13, 10] ++ body] =
      .ok [(contentLengthKey, natToDec n)] (if body = [] then [] else [body]) := by
  set d := natToDec n with hd
  have hshape : asciiStr "Content-Length: " ++ d ++ [13, 10, 13, 10] ++ body =
      (asciiStr "Content-Length: " ++ d) ++ 13 :: 10 :: (13 :: 10 :: body) := by
    simp
  rw [hshape]
  have h10 : (10 : Nat) ∉ asciiStr "Content-Length: " ++ d := by
    intro hm
    rcases List.mem_append.mp hm with hm | hm
    · revert hm; decide
    · exact ten_not_mem_natToDec n hm
  have hr1 := read_line_crlf (asciiStr "Content-Length: " ++ d)
    (13 :: 10 :: body) [] h10
  rw [if_neg (by simp)] at hr1
  have hfuel : totalLen [(asciiStr "Content-Length: " ++ d) ++ 13 :: 10 :: (13 :: 10 :: body)] ≠ 0 := by
    simp [totalLen]
  obtain ⟨f, hf⟩ := Nat.exists_eq_succ_of_ne_zero hfuel
  have hins : headerInsert (asciiStr "Content-Length: " ++ d) [] =
      [(contentLengthKey, d)] := by
    have hkv : asciiStr "Content-Length: " ++ d =
        contentLengthKey ++ 58 :: 32 :: d := by
      have hcl : asciiStr "Content-Length: " = contentLengthKey ++ [58, 32] := by
        decide
      simp [hcl]
    rw [headerInsert, hkv, partitionKV_found _ _ (by decide)]
    simp [dictSet]
  have hne : ¬(asciiStr "Content-Length: " ++ d = []) := by
    intro hh
    have := congrArg List.length hh
    simp [asciiStr] at this
  unfold parseHeaders
  rw [hf]
  rw [parseHeadersAux, hr1]
  dsimp only
  rw [if_neg hne]
  rw [hins]
  have hr2 := read_line_crlf [] body [] (by simp)
  simp only [List.nil_append] at hr2
  rw [parseHeadersAux, hr2]
  dsimp only
  rw [if_pos rfl]

theorem read_request_single_frame (n : Nat) (body : List Nat) :
    read_request [asciiStr "Content-Length: " ++ natToDec n ++ [13, 10, 13, 10] ++ body] =
      readRequestBody [(contentLengthKey, natToDec n)]
        (if body = [] then [] else [body]) := by
  unfold read_request
  rw [parseHeaders_single_frame]

/-! ## Helper lemmas: the request loop -/

theorem read_request_exhausted (s : ByteStream) (h : s.flatten = []) :
    read_request s = .eof := by
  have hp : parseHeaders s = .eof := by
    unfold parseHeaders
    rw [parseHeadersAux, read_line_exhausted s h]
  unfold read_request
  rw [hp]

theorem runFrames_of_eof (step : List Nat → Option (List JObj)) (s : ByteStream)
    (h : read_request s = .eof) : runFrames step s = (.clean, []) := by
  unfold runFrames
  rw [runFramesAux, h]

theorem runFrames_of_fatal (step : List Nat → Option (List JObj)) (s : ByteStream)
    (m : String) (h : read_request s = .fatal m) :
    runFrames step s = (.fatal m, []) := by
  unfold runFrames
  rw [runFramesAux, h]

/-! ## Claim C1

The claim says a request with method `"cancelRequest"` reaches the
registered cancellation handler.  The source registers the handler under
`"$/cancelRequest"`, so the claim's own example request misses the registry
and gets a METHOD_NOT_FOUND error envelope with no `result` field. -/

/-- Claim C1, as stated, is false: dispatching
`id 7, method "cancelRequest", params [null]` against the source's registry
produces the `-32601` error envelope — no cancellation handler runs and the
response has no `result` field. -/
theorem claim1_counterexample :
    (inspectorMux stubHandler stubHandler).handle
        ⟨JVal.num 7, "cancelRequest", some (JVal.arr [JVal.null])⟩ =
      [[("jsonrpc", JVal.str "2.0"), ("id", JVal.num 7),
        ("error", JVal.obj [("code", JVal.num (-32601)),
          ("message", JVal.str "method cancelRequest not found")])]] ∧
    hasKey [("jsonrpc", JVal.str "2.0"), ("id", JVal.num 7),
        ("error", JVal.obj [("code", JVal.num (-32601)),
          ("message", JVal.str "method cancelRequest not found")])] "result" = false :=
  ⟨rfl, rfl⟩

/-- Claim C1 amended: the registered cancellation method is
`"$/cancelRequest"`; for `id 7, method "$/cancelRequest", params [null]`
dispatch invokes `cancel_request` and writes a response with the same id, a
`result` field present (value `null`) and no `error` field — whatever the
import-backed handlers do. -/
theorem claim1_amended (mm mv : Handler) :
    (inspectorMux mm mv).handle
        ⟨JVal.num 7, "$/cancelRequest", some (JVal.arr [JVal.null])⟩ =
      [[("jsonrpc", JVal.str "2.0"), ("id", JVal.num 7), ("result", JVal.null)]] ∧
    hasKey [("jsonrpc", JVal.str "2.0"), ("id", JVal.num 7),
      ("result", JVal.null)] "result" = true ∧
    hasKey [("jsonrpc", JVal.str "2.0"), ("id", JVal.num 7),
      ("result", JVal.null)] "error" = false :=
  ⟨rfl, rfl, rfl⟩

/-! ## Claim C2

The claim says an absent `params` key behaves as an empty sequence.  The
source stores `request.get("params", None)` and calls `handler(*None)`,
which raises `TypeError` inside the dispatch `try`, so the response is an
INTERNAL_ERROR envelope — the handler is never invoked and no `result` is
produced. -/

/-- Claim C2, as stated, is false: a registry with a zero-argument handler
`ping`, dispatched a request whose `params` key is absent, yields the
`-32603` error envelope (the `TypeError` from unpacking `None`), not a
result envelope. -/
theorem claim2_counterexample :
    Mux.handle ⟨[("ping", pingHandler)]⟩ ⟨JVal.num 1, "ping", none⟩ =
      [[("jsonrpc", JVal.str "2.0"), ("id", JVal.num 1),
        ("error", JVal.obj [("code", JVal.num (-32603)),
          ("message", JVal.str starArgsNoneMsg)])]] ∧
    hasKey [("jsonrpc", JVal.str "2.0"), ("id", JVal.num 1),
        ("error", JVal.obj [("code", JVal.num (-32603)),
          ("message", JVal.str starArgsNoneMsg)])] "result" = false :=
  ⟨rfl, rfl⟩

/-- Claim C2 amended: when the `params` key is absent, `params` is `None`,
not an empty sequence; for every registered method the dispatcher catches
the unpacking `TypeError` and writes the `-32603` error envelope with the
request's id — the handler is not invoked and no result envelope is
produced. -/
theorem claim2_amended (m : Mux) (r : Request) (h : Handler)
    (hfound : dictGet m.handlers r.method = some h) (habs : r.params = none) :
    m.handle r =
      [[("jsonrpc", JVal.str "2.0"), ("id", r.id),
        ("error", JVal.obj [("code", JVal.num (-32603)),
          ("message", JVal.str starArgsNoneMsg)])]] := by
  unfold Mux.handle
  rw [hfound, habs]
  rfl

/-- Witness for `claim2_amended` at a concrete registry and request. -/
theorem claim2_witness :
    Mux.handle ⟨[("ping", pingHandler)]⟩ ⟨JVal.num 5, "ping", none⟩ =
      [[("jsonrpc", JVal.str "2.0"), ("id", JVal.num 5),
        ("error", JVal.obj [("code", JVal.num (-32603)),
          ("message", JVal.str starArgsNoneMsg)])]] :=
  claim2_amended ⟨[("ping", pingHandler)]⟩ ⟨JVal.num 5, "ping", none⟩
    pingHandler rfl rfl

/-! ## Claim C3

The claim says the written `Content-Length` equals the UTF-8 byte length of
the body string even for multi-byte text.  The source computes
`len(s)` on the *string* — the character count — before encoding, so for a
body containing a multi-byte character the declared length is short and the
round trip truncates the body.  (In production the body is `json.dumps`
output, which is ASCII-only, so the character count coincides with the byte
count there.) -/

/-- Claim C3, as stated, is false at the one-character body `"é"` (code
point 233): the written header declares `Content-Length: 1` while the UTF-8
encoding of the body is 2 bytes long, and reading the frame back yields the
single byte `0xC3`, not the body. -/
theorem claim3_counterexample :
    parseHeaders [write_frame [233]] =
      .ok [(contentLengthKey, [49])] [[195, 169]] ∧
    parsePyInt [49] = some 1 ∧
    (utf8Encode [233]).length = 2 ∧
    read_request [write_frame [233]] = .ok [195] [[169]] :=
  ⟨rfl, rfl, rfl, rfl⟩

/-- Claim C3 amended: for any ASCII body string `s` — which covers every
body the writer actually produces, since the serializer escapes non-ASCII —
writing a frame for `s` and reading it back yields `s` with nothing left
over, and the declared `Content-Length` value parses to the UTF-8 byte
length of `s` (which equals its character count exactly because `s` is
ASCII). -/
theorem claim3_amended (s : List Nat) (h : ∀ c ∈ s, c < 128) :
    read_request [write_frame s] = .ok s [] ∧
    parseHeaders [write_frame s] =
      .ok [(contentLengthKey, natToDec s.length)] (if s = [] then [] else [s]) ∧
    parsePyInt (natToDec s.length) = some ((utf8Encode s).length : Int) := by
  have hw := write_frame_ascii s h
  have hlen : (utf8Encode s).length = s.length := by rw [utf8Encode_ascii s h]
  have hget : dictGet [(contentLengthKey, natToDec s.length)] contentLengthKey =
      some (natToDec s.length) := by simp [dictGet]
  refine ⟨?_, ?_, ?_⟩
  · rw [hw, read_request_single_frame]
    by_cases hs : s = []
    · subst hs
      rfl
    · rw [if_neg hs]
      unfold readRequestBody
      rw [hget]
      dsimp only
      rw [parsePyInt_natToDec]
      dsimp only
      rw [Int.toNat_natCast, readBody_whole s hs]
  · rw [hw, parseHeaders_single_frame]
  · rw [hlen]
    exact parsePyInt_natToDec s.length

/-- Witness for `claim3_amended` at the concrete ASCII body `"hi"`. -/
theorem claim3_witness :
    read_request [write_frame [104, 105]] = .ok [104, 105] [] ∧
    parsePyInt (natToDec ([104, 105] : List Nat).length) =
      some ((utf8Encode [104, 105]).length : Int) := by
  have h := claim3_amended [104, 105] (by decide)
  exact ⟨h.1, h.2.2⟩

/-! ## Claim C4 -/

/-- Claim C4: for every request whose method is not in the registry,
dispatch writes exactly the error response
`jsonrpc "2.0", the same id, error code -32601,
message "method (method) not found"` — and invokes no handler: the response
written is this fixed envelope, independent of every registered handler. -/
theorem claim4_thm (m : Mux) (r : Request)
    (h : dictGet m.handlers r.method = none) :
    m.handle r =
      [[("jsonrpc", JVal.str "2.0"), ("id", r.id),
        ("error", JVal.obj [("code", JVal.num (-32601)),
          ("message", JVal.str ("method " ++ r.method ++ " not found"))])]] := by
  unfold Mux.handle
  rw [h]
  rfl

/-- Witness for `claim4_thm` at the spec's example request. -/
theorem claim4_witness :
    (inspectorMux stubHandler stubHandler).handle
        ⟨JVal.num 1, "noSuchMethod", some (JVal.arr [])⟩ =
      [[("jsonrpc", JVal.str "2.0"), ("id", JVal.num 1),
        ("error", JVal.obj [("code", JVal.num (-32601)),
          ("message", JVal.str "method noSuchMethod not found")])]] :=
  claim4_thm (inspectorMux stubHandler stubHandler)
    ⟨JVal.num 1, "noSuchMethod", some (JVal.arr [])⟩ rfl

/-! ## Claim C5 -/

/-- Claim C5: a handler fault during invocation is caught at the dispatch
boundary and becomes the `-32603` error envelope with the fault's textual
description and the same id; dispatch of the faulting request is one
self-contained step, after which the loop handles subsequent requests
unchanged (the fault never escapes). -/
theorem claim5_thm (m : Mux) (r : Request) (h : Handler) (e : String)
    (rest : List Request)
    (hfound : dictGet m.handlers r.method = some h)
    (hfail : (unpackArgs r.params).bind h = .error e) :
    m.handle r =
      [[("jsonrpc", JVal.str "2.0"), ("id", r.id),
        ("error", JVal.obj [("code", JVal.num (-32603)),
          ("message", JVal.str e)])]] ∧
    processRequests m (r :: rest) = m.handle r ++ processRequests m rest := by
  constructor
  · unfold Mux.handle
    rw [hfound]
    dsimp only
    rw [hfail]
    rfl
  · rfl

/-- Witness for `claim5_thm`: an always-failing handler invoked with
`id "x"`, as in the spec's property. -/
theorem claim5_witness :
    Mux.handle ⟨[("fail", failHandler)]⟩ ⟨JVal.str "x", "fail", some (JVal.arr [])⟩ =
      [[("jsonrpc", JVal.str "2.0"), ("id", JVal.str "x"),
        ("error", JVal.obj [("code", JVal.num (-32603)),
          ("message", JVal.str "boom")])]] ∧
    processRequests ⟨[("fail", failHandler)]⟩
        [⟨JVal.str "x", "fail", some (JVal.arr [])⟩] =
      Mux.handle ⟨[("fail", failHandler)]⟩ ⟨JVal.str "x", "fail", some (JVal.arr [])⟩ ++
        processRequests ⟨[("fail", failHandler)]⟩ [] :=
  claim5_thm ⟨[("fail", failHandler)]⟩ ⟨JVal.str "x", "fail", some (JVal.arr [])⟩
    failHandler "boom" [] rfl rfl

/-! ## Claim C6 -/

/-- Claim C6: end-of-stream while attempting to read a header line, with no
partial line received, makes `read_line` raise `EOFError`, which `requests`
catches; the request loop terminates cleanly — no fault outcome — and
writes nothing, whatever the decode-and-dispatch step would do. -/
theorem claim6_thm (step : List Nat → Option (List JObj)) (s : ByteStream)
    (h : s.flatten = []) :
    read_request s = .eof ∧ runFrames step s = (.clean, []) := by
  have he := read_request_exhausted s h
  exact ⟨he, runFrames_of_eof step s he⟩

/-- Witness for `claim6_thm` at a concrete exhausted stream. -/
theorem claim6_witness :
    read_request ([[], []] : ByteStream) = .eof ∧
    runFrames (fun _ => some []) [[], []] = (.clean, []) :=
  claim6_thm (fun _ => some []) [[], []] rfl

/-! ## Claim C7 -/

/-- Claim C7: a frame whose header block lacks `Content-Length`, or whose
value is non-numeric, makes `read_request` raise a fault (`KeyError` /
`ValueError`) that `requests` does not catch: the request loop ends with
that fatal outcome and writes no response for the frame, whatever the
decode-and-dispatch step would do. -/
theorem claim7_thm (s : ByteStream) (h : Headers) (rest : ByteStream)
    (hph : parseHeaders s = .ok h rest)
    (hcl : dictGet h contentLengthKey = none ∨
      ∃ v, dictGet h contentLengthKey = some v ∧ parsePyInt v = none) :
    ∃ msg, read_request s = .fatal msg ∧
      ∀ step, runFrames step s = (.fatal msg, []) := by
  have hrr : ∃ msg, read_request s = .fatal msg := by
    unfold read_request
    rw [hph]
    dsimp only
    unfold readRequestBody
    rcases hcl with hcl | ⟨v, hv, hpv⟩
    · rw [hcl]
      exact ⟨_, rfl⟩
    · rw [hv]
      dsimp only
      rw [hpv]
      exact ⟨_, rfl⟩
  obtain ⟨msg, hmsg⟩ := hrr
  exact ⟨msg, hmsg, fun step => runFrames_of_fatal step s msg hmsg⟩

/-- Witness for `claim7_thm`: one frame with no `Content-Length` header at
all, and one whose value is the non-numeric `abc`. -/
theorem claim7_witness :
    (∃ msg, read_request [asciiStr "Foo: bar\r\n\r\nxx"] = .fatal msg ∧
      ∀ step, runFrames step [asciiStr "Foo: bar\r\n\r\nxx"] = (.fatal msg, [])) ∧
    (∃ msg, read_request [asciiStr "Content-Length: abc\r\n\r\n"] = .fatal msg ∧
      ∀ step, runFrames step [asciiStr "Content-Length: abc\r\n\r\n"] =
        (.fatal msg, [])) := by
  constructor
  · exact claim7_thm _ _ _ rfl (Or.inl rfl)
  · exact claim7_thm _ _ _ rfl (Or.inr ⟨asciiStr "abc", rfl, rfl⟩)

/-! ## Claim C8

The claim says an early end of stream during the body read terminates the
request loop as a fatal fault.  In the source, `stdin.read` at end of
stream returns `b""`, `length` never decreases, and the `while length > 0`
loop spins forever — the loop neither terminates nor raises. -/

/-- Claim C8: evaluating the reader at the failing input — a frame declaring
`Content-Length: 5` whose stream ends after the two body bytes `ab` — shows
the body loop does not terminate (the `diverge` outcome, i.e. the source
spins on zero-byte reads), rather than raising a fatal fault; the stuck
state is the body loop wanting 3 more bytes from an exhausted stream. -/
theorem claim8_thm :
    read_request [asciiStr "Content-Length: 5\r\n\r\nab"] = .diverge ∧
    readBody 3 [] = none :=
  ⟨rfl, rfl⟩

/-! ## Claim C9 -/

/-- Claim C9: the loop writes exactly one response per request, in request
order, each frame's response written before the next request is handled;
and every response carries exactly one of `result`/`error` — never both,
never neither — with the request's id echoed verbatim. -/
theorem claim9_thm (m : Mux) (rs : List Request) :
    (processRequests m rs).length = rs.length ∧
    processRequests m rs = (rs.map (fun r => m.handle r)).flatten ∧
    (∀ (r : Request) (rest : List Request),
      processRequests m (r :: rest) = m.handle r ++ processRequests m rest) ∧
    (∀ r : Request, ∃ o : JObj, m.handle r = [o] ∧
      dictGet o "id" = some r.id ∧
      ((hasKey o "result" = true ∧ hasKey o "error" = false) ∨
       (hasKey o "error" = true ∧ hasKey o "result" = false))) := by
  have hone : ∀ r : Request, ∃ o : JObj, m.handle r = [o] ∧
      dictGet o "id" = some r.id ∧
      ((hasKey o "result" = true ∧ hasKey o "error" = false) ∨
       (hasKey o "error" = true ∧ hasKey o "result" = false)) := by
    intro r
    unfold Mux.handle
    cases dictGet m.handlers r.method with
    | none => exact ⟨_, rfl, rfl, Or.inr ⟨rfl, rfl⟩⟩
    | some hd =>
      dsimp only
      cases (unpackArgs r.params).bind hd with
      | error e => exact ⟨_, rfl, rfl, Or.inr ⟨rfl, rfl⟩⟩
      | ok v => exact ⟨_, rfl, rfl, Or.inl ⟨rfl, rfl⟩⟩
  refine ⟨?_, ?_, fun r rest => rfl, hone⟩
  · induction rs with
    | nil => rfl
    | cons r rest ih =>
      obtain ⟨o, ho, _⟩ := hone r
      simp [processRequests, ho, ih]
  · induction rs with
    | nil => rfl
    | cons r rest ih =>
      simp [processRequests, ih]

/-! ## Claim C10 -/

/-- Claim C10: on a frame whose header block repeats a name, the parsed
header set keeps the last occurrence's value (`Foo` maps to `2`, not `1`);
in general a later `headers[key] = value` overwrites the earlier binding;
and headers other than `Content-Length` have no effect on frame reading:
any two header sets agreeing on `Content-Length` read the body
identically. -/
theorem claim10_thm :
    parseHeaders [asciiStr "Foo: 1\r\nFoo: 2\r\nContent-Length: 0\r\n\r\nx"] =
      .ok [(asciiStr "Foo", asciiStr "2"), (contentLengthKey, asciiStr "0")]
        [[120]] ∧
    (∀ (h : Headers) (k v : List Nat), dictGet (dictSet h k v) k = some v) ∧
    (∀ (h h2 : Headers) (s : ByteStream),
      dictGet h contentLengthKey = dictGet h2 contentLengthKey →
      readRequestBody h s = readRequestBody h2 s) := by
  refine ⟨rfl, fun h k v => dictGet_dictSet h k v, fun h h2 s heq => ?_⟩
  unfold readRequestBody
  rw [heq]

/-- Witness for `claim10_thm`: an extra unrelated header does not change the
outcome of the body read. -/
theorem claim10_witness :
    readRequestBody [(contentLengthKey, [48])] [] =
      readRequestBody [(asciiStr "X", [49]), (contentLengthKey, [48])] [] :=
  claim10_thm.2.2 [(contentLengthKey, [48])]
    [(asciiStr "X", [49]), (contentLengthKey, [48])] [] rfl

end Inspector
